import Mathlib

/-!
Verification of pydigiham, `src/mbesynthesizer.cpp`.

A shallow embedding of the Python binding of the digiham MBE synthesizer:
the mode resolver `convertToAmbeMode`, the address classifier / connection
factory `createModule`, and the two entry points `MbeSynthesizer_init` and
`MbeSynthesizer_hasAmbe`.

Conventions of the embedding.

* A C++ `std::string` is a `List Char`, one `Char` per `char`.  The code only
  ever compares against the ASCII characters `/`, `:`, the sign characters,
  white space and the decimal digits, none of which occurs inside a multi-byte
  UTF-8 sequence.
* C++ exceptions and the CPython error indicator are explicit values
  (`CppException`, `PyErr`).
* Machine integers are natural numbers reduced modulo `2 ^ w`; the widths are
  those of the LP64 data model (x86-64 / aarch64 Linux): `unsigned long` has
  64 bits, `unsigned int` 32 bits, `unsigned short` and `short` 16 bits.
* Reference counting (`Py_INCREF` / `Py_DECREF`), `malloc` / `free` and the
  release of the interpreter lock around blocking calls
  (`Py_BEGIN_ALLOW_THREADS`) have no observable result in the embedding and
  are left out.
-/

namespace PyDigiham

/-! ## Machine integers (LP64) -/

/-- Largest value of the C type `unsigned long` (64 bits). -/
def ULONG_MAX : Nat := 2 ^ 64 - 1

/-- Conversion of a non-negative value to `unsigned int` (32 bits). -/
def toUnsignedInt (v : Nat) : Nat := v % 2 ^ 32

/-- Conversion of a non-negative value to `unsigned short` (16 bits). -/
def toUnsignedShort (v : Nat) : Nat := v % 2 ^ 16

/-! ## The CPython side -/

/-- The classes of Python exceptions that occur in this file. -/
inductive PyExc where
  | ValueError
  | ConnectionError
  | RuntimeError
  | OverflowError
  | TypeError
  | AttributeError
  | Exception
  deriving DecidableEq, Repr

/-- A raised Python exception: the content of the error indicator. -/
structure PyErr where
  kind : PyExc
  msg : String
  deriving DecidableEq, Repr

/-- A byte of a Python `bytes` object. -/
abbrev Byte := Fin 256

mutual
/-- The Python objects the module can be handed.  An `object` is an
arbitrary object, described by what the C API calls made on it answer:
the three `PyObject_IsInstance` checks (an error stands for the return
value `-1`) and the three method calls. -/
inductive PyObject where
  | None
  | long (v : Int)
  | bytes (data : List Byte)
  | object (isTableMode isControlWordMode isDynamicMode : Except PyErr Bool)
      (getIndex getBytes : PyResult) (getModeFor : Fin 256 → PyResult)
/-- The outcome of `PyObject_CallMethod`: `NULL` with an exception left in
the error indicator, or a new reference to the object returned. -/
inductive PyResult where
  | raised (err : PyErr)
  | value (o : PyObject)
end

/-! ## The digiham side -/

/-- What an invocation of a dynamic mode callback does that its caller can
observe, besides the value it returns. -/
inductive Event where
  | GILEnsure
  | GILRelease
  | cerr (text : String)
  deriving DecidableEq, Repr

/-- What an invocation of a dynamic mode callback leaves behind when it
returns: the events of the invocation, the Python exception that is set in
the error indicator of the thread at that moment (the indicator is clear
when the callback is entered), and the `Mode*` returned (`none` for
`nullptr`). -/
structure CallbackReturn (μ : Type) where
  events : List Event
  pending : Option PyErr
  result : Option μ

/-- The class `Digiham::Mbe::Mode` with its three subclasses.  A value of
this type models a `Mode*` that is not null. -/
inductive Mode where
  | TableMode (index : Nat)
  | ControlWordMode (words : List Int)
  | DynamicMode (callback : Fin 256 → CallbackReturn Mode)

/-- Byte order of the machine. -/
inductive Endian where
  | little
  | big
  deriving DecidableEq, Repr

/-- The `short` whose object representation is the two bytes `b0 b1`, in
this order in memory. -/
def shortOfBytes (e : Endian) (b0 b1 : Byte) : Int :=
  let u : Nat := match e with
    | .little => b0.val + 256 * b1.val
    | .big => 256 * b0.val + b1.val
  if u < 2 ^ 15 then (u : Int) else (u : Int) - 2 ^ 16

/-- The array of `short` that `std::memcpy` leaves in a buffer of `short`
when it copies `data` there: element `k` occupies bytes `2k` and `2k+1`.
A trailing odd byte fills no element. -/
def memcpyShorts (e : Endian) : List Byte → List Int
  | b0 :: b1 :: rest => shortOfBytes e b0 b1 :: memcpyShorts e rest
  | _ => []

/-- The C API function `PyLong_AsUnsignedLong`: the value of a Python `int` as an
`unsigned long`, or `OverflowError`. -/
def PyLong_AsUnsignedLong (v : Int) : Except PyErr Nat :=
  if v < 0 then
    .error ⟨.OverflowError, "can't convert negative value to unsigned int"⟩
  else if v.toNat > ULONG_MAX then
    .error ⟨.OverflowError, "Python int too large to convert to C unsigned long"⟩
  else
    .ok v.toNat

mutual
/-- The function `convertToAmbeMode` (lines 7-92).  The result is the `Mode*` returned;
`.error none` is `nullptr` with the error indicator left untouched,
`.error (some e)` is `nullptr` with the Python exception `e` set. -/
def convertToAmbeMode (e : Endian) : PyObject → Except (Option PyErr) Mode
  | .object isTableMode isControlWordMode isDynamicMode getIndex getBytes getModeFor =>
    match isTableMode with
    | .error err => .error (some err)
    | .ok true =>
      match getIndex with
      | .raised err => .error (some err)
      | .value (.long v) =>
        match PyLong_AsUnsignedLong v with
        | .error err => .error (some err)
        | .ok index => .ok (.TableMode (toUnsignedInt index))
      | .value _ => .error none
    | .ok false =>
      match isControlWordMode with
      | .error err => .error (some err)
      | .ok true =>
        match getBytes with
        | .raised err => .error (some err)
        | .value (.bytes controlWordBytes) =>
          if controlWordBytes.length ≠ 12 then
            .error (some ⟨.ValueError, "control word size mismatch, should be 12"⟩)
          else
            .ok (.ControlWordMode (memcpyShorts e (controlWordBytes.take 12)))
        | .value _ => .error none
      | .ok false =>
        match isDynamicMode with
        | .error err => .error (some err)
        | .ok true => .ok (.DynamicMode fun code => dynamicCallback e code (getModeFor code))
        | .ok false => .error none
  | _ => .error none
/-- The body of the lambda handed to `DynamicMode` (lines 67-88), given
what `PyObject_CallMethod(mode, "getModeFor", "b", code)` answers.  The
lambda calls neither `PyErr_Clear` nor `PyErr_Print`: the exception of a
failed call, or the one the nested `convertToAmbeMode` sets, is still in
the error indicator when the lambda returns. -/
def dynamicCallback (e : Endian) (code : Fin 256) : PyResult → CallbackReturn Mode
  | .raised err =>
    ⟨[.GILEnsure, .cerr ("failed to get mode for code " ++ toString code.val ++ "\n"),
      .GILRelease], some err, none⟩
  | .value .None =>
    ⟨[.GILEnsure, .cerr ("mode for code " ++ toString code.val ++ " was None\n"),
      .GILRelease], none, none⟩
  | .value newMode =>
    match convertToAmbeMode e newMode with
    | .ok result => ⟨[.GILEnsure, .GILRelease], none, some result⟩
    | .error raised => ⟨[.GILEnsure, .GILRelease], raised, none⟩
end

/-! ## Address classification and connection -/

/-- The C++ exceptions that occur in this file. -/
inductive CppException where
  | invalid_argument
  | out_of_range
  | ConnectionError (what : String)
  deriving DecidableEq, Repr

/-- The function `isspace` on the characters of the C locale: space, `\t`, `\n`, `\v`,
`\f`, `\r`. -/
def isspace (c : Char) : Bool := c.toNat = 32 || (9 ≤ c.toNat && c.toNat ≤ 13)

/-- The function `isdigit`: the decimal digits `0` to `9`. -/
def isdigit (c : Char) : Bool := 48 ≤ c.toNat && c.toNat ≤ 57

/-- The number denoted by a sequence of decimal digits. -/
def digitsValue (ds : List Char) : Nat :=
  ds.foldl (fun acc c => 10 * acc + (c.toNat - 48)) 0

/-- The optional sign in front of the digits that `strtoul` converts:
whether it is a minus sign, and the text after it. -/
def splitSign (s : List Char) : Bool × List Char :=
  match s with
  | '-' :: rest => (true, rest)
  | '+' :: rest => (false, rest)
  | _ => (false, s)

/-- The function `std::stoul(str)` (base 10, end position not requested), which is
`strtoul`: white space is skipped, one sign is accepted, the longest run of
digits is converted and whatever follows it is ignored.  No digit at all is
`std::invalid_argument`; a magnitude above `ULONG_MAX` is
`std::out_of_range`; a minus sign negates within `unsigned long`. -/
def stoul (str : List Char) : Except CppException Nat :=
  let signed := splitSign (str.dropWhile isspace)
  let digits := signed.2.takeWhile isdigit
  if digits = [] then .error .invalid_argument
  else if digitsValue digits > ULONG_MAX then .error .out_of_range
  else if signed.1 then .ok ((2 ^ 64 - digitsValue digits) % 2 ^ 64)
  else .ok (digitsValue digits)

/-- The member `std::string::find` for a single character: the position of its first
occurrence, `none` for `npos`. -/
def find (s : List Char) (c : Char) : Option Nat :=
  match s with
  | [] => none
  | x :: rest => if x = c then some 0 else (find rest c).map (· + 1)

/-- The arguments of the three constructors of
`Digiham::Mbe::MbeSynthesizer`: none, a socket path, or a host and a port
(an `unsigned short`). -/
inductive AddressSpec where
  | Default
  | LocalSocket (path : List Char)
  | Remote (host : List Char) (port : Nat)
  deriving DecidableEq, Repr

/-- The class `Digiham::Mbe::MbeSynthesizer` as the binding uses it; `M` is
the type of its instances.  Each member may throw. -/
structure Digiham (M : Type) where
  construct : AddressSpec → Except CppException M
  setMode : M → Mode → Except CppException M
  hasAmbeCodec : M → Except CppException Bool

/-- The function `createModule` (lines 94-117); `construct` is the expression
`new Digiham::Mbe::MbeSynthesizer(...)`. -/
def createModule {M : Type} (construct : AddressSpec → Except CppException M)
    (serverString : List Char) : Except CppException M :=
  if serverString.length = 0 then
    construct .Default
  else if serverString.head? = some '/' then
    construct (.LocalSocket serverString)
  else
    match find serverString ':' with
    | some pos =>
      match stoul (serverString.drop (pos + 1)) with
      | .error ex => .error ex
      | .ok value => construct (.Remote (serverString.take pos) (toUnsignedShort value))
    | none => construct (.Remote serverString 1073)

/-! ## The entry points -/

/-- How a function called by the interpreter ends: it returns a value, it
returns its error value with a Python exception set, or a C++ exception
leaves it. -/
inductive Outcome (α : Type) where
  | returned (a : α)
  | raised (err : PyErr)
  | uncaught (ex : CppException)

/-- The function `MbeSynthesizer_init` (lines 119-167).  `args` is what
`PyArg_ParseTupleAndKeywords` delivers: the mode object and the server
string (empty when not given), or the exception it raised.  A returned
module is the one stored by `self->setModule`, with return value `0`. -/
def MbeSynthesizer_init {M : Type} (lib : Digiham M) (e : Endian)
    (args : Except PyErr (PyObject × List Char)) : Outcome M :=
  match args with
  | .error err => .raised err
  | .ok (mode, server) =>
    match convertToAmbeMode e mode with
    | .error _ => .raised ⟨.ValueError, "unsupported ambe mode"⟩
    | .ok ambeMode =>
      let attempt : Except CppException (Option M × String) :=
        match createModule lib.construct server with
        | .error (.ConnectionError what) => .ok (none, what)
        | .error ex => .error ex
        | .ok module =>
          match lib.setMode module ambeMode with
          | .error (.ConnectionError what) => .ok (some module, what)
          | .error ex => .error ex
          | .ok bound => .ok (some bound, "")
      match attempt with
      | .error ex => .uncaught ex
      | .ok (module, error) =>
        if error ≠ "" then .raised ⟨.ConnectionError, error⟩
        else
          match module with
          | none => .raised ⟨.RuntimeError, "unable to create MbeSynthesizer module"⟩
          | some m => .returned m

/-- The function `MbeSynthesizer_hasAmbe` (lines 169-201). -/
def MbeSynthesizer_hasAmbe {M : Type} (lib : Digiham M)
    (args : Except PyErr (List Char)) : Outcome Bool :=
  match args with
  | .error err => .raised err
  | .ok server =>
    let attempt : Except CppException (Bool × String) :=
      match createModule lib.construct server with
      | .error (.ConnectionError what) => .ok (false, what)
      | .error ex => .error ex
      | .ok module =>
        match lib.hasAmbeCodec module with
        | .error (.ConnectionError what) => .ok (false, what)
        | .error ex => .error ex
        | .ok result => .ok (result, "")
    match attempt with
    | .error ex => .uncaught ex
    | .ok (result, error) =>
      if error ≠ "" then .raised ⟨.ConnectionError, error⟩
      else .returned result

/-! ## Reference notions of the specification -/

/-- The part of an address before its first `:` (all of it when there is
none). -/
def hostPart (address : List Char) : List Char :=
  address.takeWhile fun c => c != ':'

/-- The text after the first `:` of an address. -/
def textAfterColon (address : List Char) : List Char :=
  (address.dropWhile fun c => c != ':').drop 1

/-- The number a sequence of decimal digits denotes, most significant digit
first, by positional notation. -/
def numeralValue (text : List Char) : Nat :=
  Nat.ofDigits 10 ((text.map fun c => c.toNat - '0'.toNat).reverse)

/-- The text is a plain decimal numeral: one digit at least, and digits
only. -/
def isNumeral (text : List Char) : Bool :=
  !text.isEmpty && text.all fun c => decide ('0' ≤ c) && decide (c ≤ '9')

/-- The port of the reference rule for an address that is neither empty
nor a socket path: 1073 without `:`; the value of the text after the first
`:` when that text is a numeral of value at most 65535; otherwise the rule
names no port.  The host of the rule is `hostPart`, for every address. -/
def referencePort (address : List Char) : Option Nat :=
  if ':' ∈ address then
    if isNumeral (textAfterColon address) && decide (numeralValue (textAfterColon address) ≤ 65535)
    then some (numeralValue (textAfterColon address))
    else none
  else some 1073

/-- The decimal digits a text begins with, after optional white space and at
most one sign; empty when no digit stands there. -/
def leadingDigits (text : List Char) : List Char :=
  match text.dropWhile isspace with
  | [] => []
  | c :: rest =>
    if c = '-' ∨ c = '+' then rest.takeWhile isdigit else (c :: rest).takeWhile isdigit

/-- The object representation of the `short` of value `v`: its two bytes in
memory order (16 bits, two's complement). -/
def bytesOfShort (e : Endian) (v : Int) : List Byte :=
  let u : Nat := (v % 65536).toNat
  let lo : Byte := ⟨u % 256, Nat.mod_lt _ (by decide)⟩
  let hi : Byte := ⟨u / 256 % 256, Nat.mod_lt _ (by decide)⟩
  match e with
  | .little => [lo, hi]
  | .big => [hi, lo]

/-- The encoding of a sequence of `short` values to bytes in native byte
order, value after value. -/
def encodeShorts (e : Endian) : List Int → List Byte
  | [] => []
  | v :: rest => bytesOfShort e v ++ encodeShorts e rest

/-! ## Concrete descriptors and backends -/

/-- A Python object of the class `TableMode` whose `getIndex` returns the
`int` `index`; it has no other method. -/
def tableDescriptor (index : Int) : PyObject :=
  .object (.ok true) (.ok false) (.ok false) (.value (.long index))
    (.raised ⟨.AttributeError, "getBytes"⟩) (fun _ => .raised ⟨.AttributeError, "getModeFor"⟩)

/-- A Python object of the class `ControlWordMode` whose `getBytes` returns
the `bytes` object `payload`; it has no other method. -/
def controlWordDescriptor (payload : List Byte) : PyObject :=
  .object (.ok false) (.ok true) (.ok false) (.raised ⟨.AttributeError, "getIndex"⟩)
    (.value (.bytes payload)) (fun _ => .raised ⟨.AttributeError, "getModeFor"⟩)

/-- A Python object of the class `DynamicMode` whose `getModeFor` answers as
`getModeFor` does; it has no other method. -/
def dynamicDescriptor (getModeFor : Fin 256 → PyResult) : PyObject :=
  .object (.ok false) (.ok false) (.ok true) (.raised ⟨.AttributeError, "getIndex"⟩)
    (.raised ⟨.AttributeError, "getBytes"⟩) getModeFor

/-- A backend no connection to which can be established: its constructors
throw `ConnectionError(what)`. -/
def refusingBackend (what : String) : Digiham Unit where
  construct := fun _ => .error (.ConnectionError what)
  setMode := fun m _ => .ok m
  hasAmbeCodec := fun _ => .ok true

/-- A backend that is constructed without failure and whose later calls
throw `ConnectionError(what)`. -/
def droppingBackend (what : String) : Digiham Unit where
  construct := fun _ => .ok ()
  setMode := fun _ _ => .error (.ConnectionError what)
  hasAmbeCodec := fun _ => .error (.ConnectionError what)

/-! ## Lemmas on `find` and `stoul` -/

theorem find_of_not_mem (s : List Char) (c : Char) (h : c ∉ s) : find s c = none := by
  induction s with
  | nil => rfl
  | cons x rest ih =>
    have hx : x ≠ c := fun hxc => h (by simp [hxc])
    have hr : c ∉ rest := fun hm => h (by simp [hm])
    simp [find, hx, ih hr]

theorem find_of_mem (s : List Char) (c : Char) (h : c ∈ s) :
    ∃ pos, find s c = some pos ∧ s.take pos = s.takeWhile (fun x => x != c) ∧
      s.drop (pos + 1) = (s.dropWhile fun x => x != c).drop 1 := by
  induction s with
  | nil => simp at h
  | cons x rest ih =>
    by_cases hx : x = c
    · exact ⟨0, by simp [find, hx], by simp [hx], by simp [hx]⟩
    · have hr : c ∈ rest := by
        rcases List.mem_cons.mp h with h1 | h1
        · exact absurd h1.symm hx
        · exact h1
      obtain ⟨pos, h1, h2, h3⟩ := ih hr
      refine ⟨pos + 1, by simp [find, hx, h1], ?_, ?_⟩
      · simp [List.takeWhile_cons, hx, h2]
      · simp [List.dropWhile_cons, hx, h3]

theorem char_digit_iff (c : Char) : ('0' ≤ c ∧ c ≤ '9') ↔ isdigit c = true := by
  have h0 : ('0' ≤ c) ↔ 48 ≤ c.toNat := Iff.rfl
  have h9 : (c ≤ '9') ↔ c.toNat ≤ 57 := Iff.rfl
  simp [isdigit, h0, h9]

theorem isdigit_not_isspace (c : Char) (h : isdigit c = true) : isspace c = false := by
  simp only [isdigit, Bool.and_eq_true, decide_eq_true_eq] at h
  simp only [isspace, Bool.or_eq_false_iff, decide_eq_false_iff_not, Bool.and_eq_false_iff]
  omega

theorem isdigit_not_sign (c : Char) (h : isdigit c = true) : c ≠ '-' ∧ c ≠ '+' := by
  constructor <;> (intro hc; subst hc; revert h; decide)

theorem digitsValue_append (ds : List Char) (c : Char) :
    digitsValue (ds ++ [c]) = 10 * digitsValue ds + (c.toNat - 48) := by
  simp [digitsValue, List.foldl_append]

theorem digitsValue_eq_numeralValue (ds : List Char) : digitsValue ds = numeralValue ds := by
  induction ds using List.reverseRecOn with
  | nil => rfl
  | append_singleton ds c ih =>
    rw [digitsValue_append, ih]
    have h48 : '0'.toNat = 48 := rfl
    simp [numeralValue, Nat.ofDigits_cons, h48]
    omega

theorem takeWhile_eq_self_of_all (p : Char → Bool) (l : List Char) (h : ∀ c ∈ l, p c = true) :
    l.takeWhile p = l := by
  induction l with
  | nil => rfl
  | cons x rest ih =>
    have hx : p x = true := h x (by simp)
    simp [List.takeWhile_cons, hx, ih fun c hc => h c (by simp [hc])]

theorem splitSign_of_not_sign (c : Char) (rest : List Char) (hm : c ≠ '-') (hp : c ≠ '+') :
    splitSign (c :: rest) = (false, c :: rest) := by
  unfold splitSign
  split
  · rename_i heq
    exact absurd (List.cons.inj heq).1 hm
  · rename_i heq
    exact absurd (List.cons.inj heq).1 hp
  · rfl

theorem stoul_of_numeral (text : List Char) (hnum : isNumeral text = true)
    (hval : numeralValue text ≤ 65535) : stoul text = .ok (numeralValue text) := by
  simp only [isNumeral, Bool.and_eq_true, Bool.not_eq_true', List.isEmpty_eq_false,
    List.all_eq_true, decide_eq_true_eq] at hnum
  obtain ⟨hne, hall⟩ := hnum
  have hdig : ∀ c ∈ text, isdigit c = true := fun c hc => (char_digit_iff c).mp (hall c hc)
  cases text with
  | nil => exact absurd rfl hne
  | cons c rest =>
    have hc : isdigit c = true := hdig c (by simp)
    have hsp : isspace c = false := isdigit_not_isspace c hc
    obtain ⟨hm, hp⟩ := isdigit_not_sign c hc
    have htw : (c :: rest).takeWhile isdigit = c :: rest :=
      takeWhile_eq_self_of_all isdigit (c :: rest) hdig
    have hv : digitsValue (c :: rest) ≤ ULONG_MAX := by
      rw [digitsValue_eq_numeralValue]
      exact le_trans hval (by decide)
    have hdw : (c :: rest).dropWhile isspace = c :: rest := by
      simp [List.dropWhile_cons, hsp]
    unfold stoul
    simp only [hdw, splitSign_of_not_sign c rest hm hp, htw]
    rw [if_neg (by simp), if_neg (by omega)]
    simp [digitsValue_eq_numeralValue]

theorem stoul_digits (text : List Char) :
    (splitSign (text.dropWhile isspace)).2.takeWhile isdigit = leadingDigits text := by
  unfold leadingDigits
  cases hdw : text.dropWhile isspace with
  | nil => simp [splitSign]
  | cons c rest =>
    by_cases hm : c = '-'
    · subst hm
      simp [splitSign]
    · by_cases hp : c = '+'
      · subst hp
        simp [splitSign]
      · simp [splitSign_of_not_sign c rest hm hp, hm, hp]

theorem stoul_of_no_digits (text : List Char) (h : leadingDigits text = []) :
    stoul text = .error .invalid_argument := by
  unfold stoul
  simp only [stoul_digits, h, if_true]

theorem stoul_of_too_large (text : List Char) (h : leadingDigits text ≠ [])
    (hbig : 2 ^ 64 ≤ numeralValue (leadingDigits text)) :
    stoul text = .error .out_of_range := by
  have hv : digitsValue (leadingDigits text) > ULONG_MAX := by
    rw [digitsValue_eq_numeralValue]
    have : ULONG_MAX = 2 ^ 64 - 1 := rfl
    omega
  unfold stoul
  simp only [stoul_digits, h, if_false, hv, if_true]

theorem stoul_of_accepted (text : List Char) (h : leadingDigits text ≠ [])
    (hval : numeralValue (leadingDigits text) < 2 ^ 64) : ∃ value, stoul text = .ok value := by
  have hv : ¬ digitsValue (leadingDigits text) > ULONG_MAX := by
    rw [digitsValue_eq_numeralValue]
    have : ULONG_MAX = 2 ^ 64 - 1 := rfl
    omega
  unfold stoul
  simp only [stoul_digits, h, if_false, hv]
  split
  · exact ⟨_, rfl⟩
  · exact ⟨_, rfl⟩

theorem hostPart_of_not_mem (address : List Char) (h : ':' ∉ address) :
    hostPart address = address := by
  unfold hostPart
  exact takeWhile_eq_self_of_all _ address fun c hc => by
    have : c ≠ ':' := fun hcc => h (hcc ▸ hc)
    simp [this]

theorem createModule_of_no_colon {M : Type} (construct : AddressSpec → Except CppException M)
    (address : List Char) (hne : address ≠ []) (hslash : address.head? ≠ some '/')
    (hcolon : ':' ∉ address) :
    createModule construct address = construct (.Remote address 1073) := by
  have hlen : ¬ address.length = 0 := fun h => hne (List.length_eq_zero.mp h)
  unfold createModule
  rw [if_neg hlen, if_neg hslash, find_of_not_mem address ':' hcolon]

theorem createModule_of_colon {M : Type} (construct : AddressSpec → Except CppException M)
    (address : List Char) (hne : address ≠ []) (hslash : address.head? ≠ some '/')
    (hcolon : ':' ∈ address) :
    createModule construct address =
      match stoul (textAfterColon address) with
      | .error ex => .error ex
      | .ok value => construct (.Remote (hostPart address) (toUnsignedShort value)) := by
  have hlen : ¬ address.length = 0 := fun h => hne (List.length_eq_zero.mp h)
  obtain ⟨pos, hfind, htake, hdrop⟩ := find_of_mem address ':' hcolon
  unfold createModule textAfterColon hostPart
  rw [if_neg hlen, if_neg hslash]
  simp only [hfind, hdrop, htake]

/-! ## The address classifier: claims C1, C2, C3 -/

/-- C3.  The first character alone decides the kind of transport.
`createModule` invokes the constructor without arguments (`Default`),
whatever the constructor does, exactly when the address is empty; for an
address that begins with `/` it invokes the constructor taking a path, on
the entire address, also when colons occur in it; and whatever constructor
call it makes on an address, that call is `Default` only for the empty
address, `LocalSocket` only for a first character `/`, and `Remote` only
for a first character other than `/`. -/
theorem createModule_kind_by_first_char (address rest : List Char) :
    ((∀ (M : Type) (construct : AddressSpec → Except CppException M),
        createModule construct address = construct .Default) ↔ address = []) ∧
    (∀ (M : Type) (construct : AddressSpec → Except CppException M),
        createModule construct ('/' :: rest) = construct (.LocalSocket ('/' :: rest))) ∧
    (∀ spec, createModule Except.ok address = .ok spec →
      (spec = .Default ↔ address = []) ∧
      ((∃ path, spec = .LocalSocket path) ↔ address.head? = some '/') ∧
      ((∃ host port, spec = .Remote host port) ↔
        (address ≠ [] ∧ address.head? ≠ some '/'))) := by
  have hsel : ∀ spec, createModule Except.ok address = .ok spec →
      (address = [] ∧ spec = .Default) ∨
      (address.head? = some '/' ∧ spec = .LocalSocket address) ∨
      (address ≠ [] ∧ address.head? ≠ some '/' ∧ ∃ host port, spec = .Remote host port) := by
    intro spec h
    by_cases hne : address = []
    · subst hne
      exact Or.inl ⟨rfl, (Except.ok.inj h).symm⟩
    · by_cases hslash : address.head? = some '/'
      · have hlen : ¬ address.length = 0 := fun hl => hne (List.length_eq_zero.mp hl)
        unfold createModule at h
        rw [if_neg hlen, if_pos hslash] at h
        exact Or.inr (Or.inl ⟨hslash, (Except.ok.inj h).symm⟩)
      · refine Or.inr (Or.inr ⟨hne, hslash, ?_⟩)
        by_cases hcolon : ':' ∈ address
        · rw [createModule_of_colon Except.ok address hne hslash hcolon] at h
          split at h
          · cases h
          · exact ⟨_, _, (Except.ok.inj h).symm⟩
        · rw [createModule_of_no_colon Except.ok address hne hslash hcolon] at h
          exact ⟨_, _, (Except.ok.inj h).symm⟩
  refine ⟨⟨fun h => ?_, fun h M construct => by subst h; rfl⟩, fun M construct => by
    simp [createModule], fun spec h => ?_⟩
  · rcases hsel _ (h AddressSpec Except.ok) with ⟨h1, _⟩ | ⟨_, h2⟩ | ⟨_, _, _, _, h3⟩
    · exact h1
    · cases h2
    · cases h3
  · rcases hsel spec h with ⟨h1, h2⟩ | ⟨h1, h2⟩ | ⟨h1, h2, host, port, h3⟩
    · subst h1 h2
      simp
    · subst h2
      have hne : address ≠ [] := by
        intro h0
        subst h0
        simp at h1
      simp [h1, hne]
    · subst h3
      simp [h1, h2]

/-- C2, counterexample.  The address `host:notaport` is not empty and does
not begin with `/`, and `createModule` selects no Remote transport on it:
it throws `std::invalid_argument`. -/
theorem createModule_remote_not_selected :
    "host:notaport".toList ≠ [] ∧ "host:notaport".toList.head? ≠ some '/' ∧
    createModule (Except.ok : AddressSpec → Except CppException AddressSpec)
      "host:notaport".toList = .error .invalid_argument ∧
    ∀ host port, createModule (Except.ok : AddressSpec → Except CppException AddressSpec)
      "host:notaport".toList ≠ .ok (.Remote host port) := by
  refine ⟨by decide, by decide, rfl, fun host port h => ?_⟩
  have h2 : (Except.error CppException.invalid_argument : Except CppException AddressSpec)
      = .ok (.Remote host port) := h
  cases h2

/-- C2, amended.  On an address that is neither empty nor begins with `/`,
and that has no `:` or has after its first `:` a text beginning, after
optional white space and at most one sign, with decimal digits of a value
below `2 ^ 64`, `createModule` invokes the constructor taking a host and a
port.  The host is the text before the first `:`, the whole address when
there is none; the port is an `unsigned short`, and it is the port of the
reference rule wherever the rule names one: 1073 without `:`, and the
value of the numeral after the first `:` when that is at most 65535. -/
theorem createModule_remote_host_port {M : Type}
    (construct : AddressSpec → Except CppException M) (address : List Char)
    (hne : address ≠ []) (hslash : address.head? ≠ some '/')
    (haccept : ':' ∈ address → leadingDigits (textAfterColon address) ≠ [] ∧
      numeralValue (leadingDigits (textAfterColon address)) < 2 ^ 64) :
    ∃ port, createModule construct address = construct (.Remote (hostPart address) port) ∧
      port < 65536 ∧ ∀ n, referencePort address = some n → port = n := by
  by_cases hcolon : ':' ∈ address
  · obtain ⟨hdig, hval⟩ := haccept hcolon
    obtain ⟨value, hst⟩ := stoul_of_accepted (textAfterColon address) hdig hval
    refine ⟨toUnsignedShort value, ?_, Nat.mod_lt _ (by decide), fun n hn => ?_⟩
    · rw [createModule_of_colon construct address hne hslash hcolon, hst]
    · unfold referencePort at hn
      rw [if_pos hcolon] at hn
      split at hn
      · rename_i hcond
        simp only [Bool.and_eq_true, decide_eq_true_eq] at hcond
        rw [stoul_of_numeral (textAfterColon address) hcond.1 hcond.2] at hst
        have hv : value = numeralValue (textAfterColon address) := (Except.ok.inj hst).symm
        have hn2 : numeralValue (textAfterColon address) = n := Option.some.inj hn
        unfold toUnsignedShort
        rw [hv, ← hn2]
        exact Nat.mod_eq_of_lt (by omega)
      · cases hn
  · refine ⟨1073, ?_, by decide, fun n hn => ?_⟩
    · rw [createModule_of_no_colon construct address hne hslash hcolon,
        hostPart_of_not_mem address hcolon]
    · unfold referencePort at hn
      rw [if_neg hcolon] at hn
      exact Option.some.inj hn

/-- Witness of the amended C2 at the address `host:4000`. -/
theorem createModule_remote_host_port_witness :
    ∃ port, createModule (Except.ok : AddressSpec → Except CppException AddressSpec)
        "host:4000".toList = .ok (.Remote (hostPart "host:4000".toList) port) ∧
      port < 65536 ∧ ∀ n, referencePort "host:4000".toList = some n → port = n :=
  createModule_remote_host_port Except.ok "host:4000".toList (by decide) (by decide)
    (fun _ => ⟨by decide, by decide⟩)

/-- C1, counterexample.  The texts `70000`, `4000x` and `-1` after the colon
are no numerals of a value in 0..65535, and `createModule` does not fail on
them: it invokes the constructor with the ports 4464, 4000 and 65535. -/
theorem createModule_port_substituted :
    (isNumeral "70000".toList = true ∧ numeralValue "70000".toList = 70000 ∧
      isNumeral "4000x".toList = false ∧ isNumeral "-1".toList = false) ∧
    textAfterColon "host:70000".toList = "70000".toList ∧
    textAfterColon "host:4000x".toList = "4000x".toList ∧
    textAfterColon "host:-1".toList = "-1".toList ∧
    createModule (Except.ok : AddressSpec → Except CppException AddressSpec) "host:70000".toList
      = .ok (.Remote "host".toList 4464) ∧
    createModule (Except.ok : AddressSpec → Except CppException AddressSpec) "host:4000x".toList
      = .ok (.Remote "host".toList 4000) ∧
    createModule (Except.ok : AddressSpec → Except CppException AddressSpec) "host:-1".toList
      = .ok (.Remote "host".toList 65535) := by
  refine ⟨⟨by decide, by decide, by decide, by decide⟩, by decide, by decide, by decide,
    rfl, rfl, rfl⟩

/-- C1, amended.  On an address that is neither empty nor begins with `/`
and contains a `:`, when the text after the first `:` does not begin, after
optional white space and at most one sign, with decimal digits of a value
below `2 ^ 64`, `createModule` fails and invokes no constructor, whatever
the constructor is: it throws `std::invalid_argument` when no digit stands
there and `std::out_of_range` when the digits denote `2 ^ 64` or more. -/
theorem createModule_port_rejected {M : Type}
    (construct : AddressSpec → Except CppException M) (address : List Char)
    (hne : address ≠ []) (hslash : address.head? ≠ some '/') (hcolon : ':' ∈ address)
    (hrej : leadingDigits (textAfterColon address) = [] ∨
      2 ^ 64 ≤ numeralValue (leadingDigits (textAfterColon address))) :
    createModule construct address =
      .error (if leadingDigits (textAfterColon address) = [] then .invalid_argument
        else .out_of_range) := by
  rw [createModule_of_colon construct address hne hslash hcolon]
  by_cases hdig : leadingDigits (textAfterColon address) = []
  · rw [stoul_of_no_digits _ hdig, if_pos hdig]
  · have hbig : 2 ^ 64 ≤ numeralValue (leadingDigits (textAfterColon address)) := by
      rcases hrej with h | h
      · exact absurd h hdig
      · exact h
    rw [stoul_of_too_large _ hdig hbig, if_neg hdig]

/-- Witness of the amended C1 at the addresses `host:notaport` and
`host:18446744073709551616`. -/
theorem createModule_port_rejected_witness :
    createModule (Except.ok : AddressSpec → Except CppException AddressSpec)
      "host:notaport".toList = .error .invalid_argument ∧
    createModule (Except.ok : AddressSpec → Except CppException AddressSpec)
      "host:18446744073709551616".toList = .error .out_of_range :=
  ⟨createModule_port_rejected Except.ok "host:notaport".toList
      (by decide) (by decide) (by decide) (Or.inl (by decide)),
    createModule_port_rejected Except.ok "host:18446744073709551616".toList
      (by decide) (by decide) (by decide) (Or.inr (by decide))⟩

/-! ## Lemmas on the control word buffer -/

theorem shortOfBytes_bytesOfShort (e : Endian) (v : Int) (hlo : -32768 ≤ v) (hhi : v ≤ 32767)
    (rest : List Byte) :
    memcpyShorts e (bytesOfShort e v ++ rest) = v :: memcpyShorts e rest := by
  have hnn : 0 ≤ v % 65536 := Int.emod_nonneg v (by decide)
  obtain ⟨u, hu⟩ := Int.eq_ofNat_of_zero_le hnn
  have hnat : (v % 65536).toNat = u := by rw [hu]; rfl
  have hval : (if u < 2 ^ 15 then (u : Int) else (u : Int) - 2 ^ 16) = v := by
    clear hnat
    split <;> omega
  have hle : u % 256 + 256 * (u / 256 % 256) = u := by
    clear hnat hval
    omega
  have hbe : 256 * (u / 256 % 256) + u % 256 = u := by
    clear hnat hval
    omega
  cases e
  · simp only [bytesOfShort, hnat, List.cons_append, List.nil_append, memcpyShorts, shortOfBytes,
      hle, hval]
    rfl
  · simp only [bytesOfShort, hnat, List.cons_append, List.nil_append, memcpyShorts, shortOfBytes,
      hbe, hval]
    rfl

theorem encodeShorts_length (e : Endian) (vs : List Int) :
    (encodeShorts e vs).length = 2 * vs.length := by
  induction vs with
  | nil => rfl
  | cons v rest ih =>
    cases e <;> simp [encodeShorts, bytesOfShort, ih] <;> omega

theorem memcpyShorts_encodeShorts (e : Endian) (vs : List Int)
    (hrange : ∀ v ∈ vs, -32768 ≤ v ∧ v ≤ 32767) : memcpyShorts e (encodeShorts e vs) = vs := by
  induction vs with
  | nil => rfl
  | cons v rest ih =>
    have hv := hrange v (by simp)
    rw [encodeShorts, shortOfBytes_bytesOfShort e v hv.1 hv.2,
      ih fun w hw => hrange w (by simp [hw])]

theorem memcpyShorts_length (e : Endian) : ∀ l : List Byte,
    (memcpyShorts e l).length = l.length / 2
  | [] => by simp [memcpyShorts]
  | [_] => by simp [memcpyShorts]
  | _ :: _ :: rest => by
    simp only [memcpyShorts, List.length_cons, memcpyShorts_length e rest]
    omega

theorem memcpyShorts_get (e : Endian) : ∀ (l : List Byte) (k : Nat) (b0 b1 : Byte),
    l[2 * k]? = some b0 → l[2 * k + 1]? = some b1 →
    (memcpyShorts e l)[k]? = some (shortOfBytes e b0 b1)
  | [], _, _, _, h0, _ => by simp at h0
  | [_], _, _, _, _, h1 => by simp at h1
  | a :: b :: rest, 0, b0, b1, h0, h1 => by
    simp at h0 h1
    simp [memcpyShorts, h0, h1]
  | a :: b :: rest, k + 1, b0, b1, h0, h1 => by
    have e0 : 2 * (k + 1) = 2 * k + 1 + 1 := by omega
    have e1 : 2 * (k + 1) + 1 = 2 * k + 1 + 1 + 1 := by omega
    rw [e0, List.getElem?_cons_succ, List.getElem?_cons_succ] at h0
    rw [e1, List.getElem?_cons_succ, List.getElem?_cons_succ] at h1
    simp only [memcpyShorts, List.getElem?_cons_succ]
    exact memcpyShorts_get e rest k b0 b1 h0 h1

/-! ## The mode resolver: claims C4, C5, C6 -/

/-- For a Table descriptor whose index is below `2 ^ 32` the mode carries
the index itself, and a negative index or one above `ULONG_MAX` gives no
mode but `OverflowError`. -/
theorem convertToAmbeMode_table_index (e : Endian) (isControlWordMode isDynamicMode : Except PyErr Bool)
    (getBytes : PyResult) (getModeFor : Fin 256 → PyResult) (index : Int) :
    (0 ≤ index → index < 2 ^ 32 →
      convertToAmbeMode e (.object (.ok true) isControlWordMode isDynamicMode
        (.value (.long index)) getBytes getModeFor) = .ok (.TableMode index.toNat)) ∧
    (index < 0 ∨ 2 ^ 64 ≤ index →
      ∃ msg, convertToAmbeMode e (.object (.ok true) isControlWordMode isDynamicMode
        (.value (.long index)) getBytes getModeFor) = .error (some ⟨.OverflowError, msg⟩)) := by
  constructor
  · intro h0 h1
    have hlt : index.toNat < 2 ^ 32 := by omega
    have h2 : ¬ index.toNat > ULONG_MAX := by
      have : (2 : Nat) ^ 32 ≤ ULONG_MAX := by decide
      omega
    simp only [convertToAmbeMode, PyLong_AsUnsignedLong, if_neg (not_lt.mpr h0), if_neg h2,
      toUnsignedInt, Nat.mod_eq_of_lt hlt]
  · intro h
    by_cases hneg : index < 0
    · exact ⟨_, by simp only [convertToAmbeMode, PyLong_AsUnsignedLong, if_pos hneg]; rfl⟩
    · have hbig : index.toNat > ULONG_MAX := by
        have : ULONG_MAX = 2 ^ 64 - 1 := rfl
        omega
      exact ⟨_, by simp only [convertToAmbeMode, PyLong_AsUnsignedLong, if_neg hneg, if_pos hbig]; rfl⟩

/-- C4, the failing input.  The index `2 ^ 32` is not negative and
`PyLong_AsUnsignedLong` accepts it; the resolver stores it in an
`unsigned int` and yields the table mode of index 0. -/
theorem convertToAmbeMode_table_index_wraps (e : Endian) :
    PyLong_AsUnsignedLong 4294967296 = .ok 4294967296 ∧
    convertToAmbeMode e (tableDescriptor 4294967296) = .ok (.TableMode 0) :=
  ⟨rfl, rfl⟩

/-- C5.  A descriptor that the resolver takes for a control word (no
instance of `TableMode`, an instance of `ControlWordMode`) and whose
`getBytes` returns a `bytes` object: the resolver yields a
`ControlWordMode` when the payload has exactly 12 bytes, and for every other
length (0 and lengths above 12 included) it yields no mode and sets
`ValueError` with the message `control word size mismatch, should be 12`. -/
theorem convertToAmbeMode_controlWord_size (e : Endian) (isDynamicMode : Except PyErr Bool)
    (getIndex : PyResult) (getModeFor : Fin 256 → PyResult) (payload : List Byte) :
    convertToAmbeMode e (.object (.ok false) (.ok true) isDynamicMode getIndex
      (.value (.bytes payload)) getModeFor) =
      if payload.length = 12 then .ok (.ControlWordMode (memcpyShorts e payload))
      else .error (some ⟨.ValueError, "control word size mismatch, should be 12"⟩) := by
  by_cases h : payload.length = 12
  · have ht : payload.take 12 = payload := List.take_of_length_le (by omega)
    simp only [convertToAmbeMode, ne_eq, h, not_true_eq_false, if_false, if_true, ht]
  · simp only [convertToAmbeMode, ne_eq, h, not_false_eq_true, if_true, if_false]

/-- C6.  Round trip of the control words: six `short` values encoded in
order to bytes in native byte order and handed over as the payload of a
control word descriptor give the `ControlWordMode` of these six values in
this order; and for every payload of 12 bytes the resolver yields a
`ControlWordMode` of six words whose word `k` is the `short` that the
payload bytes `2k` and `2k+1` represent in native byte order. -/
theorem convertToAmbeMode_controlWord_roundtrip (e : Endian) (isDynamicMode : Except PyErr Bool)
    (getIndex : PyResult) (getModeFor : Fin 256 → PyResult) (values : List Int)
    (payload : List Byte) (hsix : values.length = 6)
    (hrange : ∀ v ∈ values, -32768 ≤ v ∧ v ≤ 32767) (hlen : payload.length = 12) :
    convertToAmbeMode e (.object (.ok false) (.ok true) isDynamicMode getIndex
      (.value (.bytes (encodeShorts e values))) getModeFor) = .ok (.ControlWordMode values) ∧
    ∃ words, convertToAmbeMode e (.object (.ok false) (.ok true) isDynamicMode getIndex
        (.value (.bytes payload)) getModeFor) = .ok (.ControlWordMode words) ∧
      words.length = 6 ∧
      ∀ k, k < 6 → ∃ b0 b1, payload[2 * k]? = some b0 ∧ payload[2 * k + 1]? = some b1 ∧
        words[k]? = some (shortOfBytes e b0 b1) := by
  constructor
  · have hl : (encodeShorts e values).length = 12 := by
      rw [encodeShorts_length, hsix]
    have ht : (encodeShorts e values).take 12 = encodeShorts e values :=
      List.take_of_length_le (by omega)
    simp only [convertToAmbeMode, ne_eq, hl, not_true_eq_false, if_false, ht,
      memcpyShorts_encodeShorts e values hrange]
  · have ht : payload.take 12 = payload := List.take_of_length_le (by omega)
    refine ⟨memcpyShorts e payload, ?_, ?_, ?_⟩
    · simp only [convertToAmbeMode, ne_eq, hlen, not_true_eq_false, if_false, ht]
    · rw [memcpyShorts_length, hlen]
    · intro k hk
      have h0 : 2 * k < payload.length := by omega
      have h1 : 2 * k + 1 < payload.length := by omega
      refine ⟨payload[2 * k], payload[2 * k + 1], List.getElem?_eq_getElem h0,
        List.getElem?_eq_getElem h1, ?_⟩
      exact memcpyShorts_get e payload k _ _ (List.getElem?_eq_getElem h0)
        (List.getElem?_eq_getElem h1)

/-- Witness of C6 on a little-endian machine, at the values
1, -1, 32767, -32768, 0, 256. -/
theorem convertToAmbeMode_controlWord_roundtrip_witness :
    convertToAmbeMode .little (controlWordDescriptor
      (encodeShorts .little [1, -1, 32767, -32768, 0, 256]))
      = .ok (.ControlWordMode [1, -1, 32767, -32768, 0, 256]) ∧
    ∃ words, convertToAmbeMode .little (controlWordDescriptor
        [1, 0, 255, 255, 255, 127, 0, 128, 0, 0, 0, 1]) = .ok (.ControlWordMode words) ∧
      words.length = 6 ∧
      ∀ k, k < 6 → ∃ b0 b1,
        ([1, 0, 255, 255, 255, 127, 0, 128, 0, 0, 0, 1] : List Byte)[2 * k]? = some b0 ∧
        ([1, 0, 255, 255, 255, 127, 0, 128, 0, 0, 0, 1] : List Byte)[2 * k + 1]? = some b1 ∧
        words[k]? = some (shortOfBytes .little b0 b1) :=
  convertToAmbeMode_controlWord_roundtrip .little (.ok false)
    (.raised ⟨.AttributeError, "getIndex"⟩) (fun _ => .raised ⟨.AttributeError, "getModeFor"⟩)
    [1, -1, 32767, -32768, 0, 256] [1, 0, 255, 255, 255, 127, 0, 128, 0, 0, 0, 1]
    (by decide) (by decide) (by decide)

/-! ## The dynamic callback: claims C9, C10 -/

/-- For a Dynamic descriptor and a code on which `getModeFor` raises or
returns `None`, the callback that the resolver builds returns `nullptr`;
the events of the invocation begin with the acquisition of the interpreter
lock and end with its release, and each happens once.  After `None` the
error indicator is clear; after a raised exception that exception is still
set in it. -/
theorem convertToAmbeMode_dynamic_failure_returns_null (e : Endian)
    (getIndex getBytes : PyResult) (getModeFor : Fin 256 → PyResult) (code : Fin 256)
    (hfail : (∃ err, getModeFor code = .raised err) ∨ getModeFor code = .value .None) :
    ∃ callback, convertToAmbeMode e (.object (.ok false) (.ok false) (.ok true) getIndex getBytes
        getModeFor) = .ok (.DynamicMode callback) ∧
      (callback code).result = none ∧
      (callback code).events.head? = some .GILEnsure ∧
      (callback code).events.getLast? = some .GILRelease ∧
      (callback code).events.count .GILEnsure = 1 ∧
      (callback code).events.count .GILRelease = 1 ∧
      (getModeFor code = .value .None → (callback code).pending = none) ∧
      (∀ err, getModeFor code = .raised err → (callback code).pending = some err) := by
  refine ⟨fun c => dynamicCallback e c (getModeFor c), by simp only [convertToAmbeMode], ?_⟩
  rcases hfail with ⟨err, h⟩ | h
  · simp only [h]
    simp [dynamicCallback, List.count_cons]
  · simp only [h]
    simp [dynamicCallback, List.count_cons]

/-- C10, counterexample.  An outer Dynamic descriptor returns for every code
an inner Dynamic descriptor, which returns for every code a control word
descriptor of 12 bytes.  The callback of the outer mode, invoked for code
5, yields a `DynamicMode`, and no `ControlWordMode`. -/
theorem convertToAmbeMode_dynamic_yields_wrapper :
    ∃ callback, convertToAmbeMode .little (dynamicDescriptor fun _ =>
        .value (dynamicDescriptor fun _ =>
          .value (controlWordDescriptor [1, 0, 2, 0, 3, 0, 4, 0, 5, 0, 6, 0])))
        = .ok (.DynamicMode callback) ∧
      (∃ inner, (callback 5).result = some (.DynamicMode inner)) ∧
      ∀ words, (callback 5).result ≠ some (.ControlWordMode words) := by
  refine ⟨_, rfl, ⟨_, rfl⟩, fun words h => ?_⟩
  have h2 : (Mode.DynamicMode _) = Mode.ControlWordMode words := Option.some.inj h
  cases h2

/-- C10, amended.  When the outer Dynamic descriptor returns for a code an
inner Dynamic descriptor that returns for this code a control word
descriptor of 12 bytes, the callback of the outer mode yields for this
code a `DynamicMode`, and the callback of that mode yields for this code
the `ControlWordMode` built from the 12 bytes.  Both invocations return. -/
theorem convertToAmbeMode_dynamic_nested (e : Endian) (code : Fin 256)
    (outerFor innerFor : Fin 256 → PyResult) (payload : List Byte)
    (houter : outerFor code = .value (dynamicDescriptor innerFor))
    (hinner : innerFor code = .value (controlWordDescriptor payload))
    (hlen : payload.length = 12) :
    ∃ outerCallback innerCallback,
      convertToAmbeMode e (dynamicDescriptor outerFor) = .ok (.DynamicMode outerCallback) ∧
      (outerCallback code).result = some (.DynamicMode innerCallback) ∧
      (innerCallback code).result = some (.ControlWordMode (memcpyShorts e payload)) := by
  have ht : payload.take 12 = payload := List.take_of_length_le (by omega)
  refine ⟨fun c => dynamicCallback e c (outerFor c), fun c => dynamicCallback e c (innerFor c),
    by simp only [dynamicDescriptor, convertToAmbeMode], ?_, ?_⟩
  · simp only [houter, dynamicDescriptor, dynamicCallback, convertToAmbeMode]
  · simp only [hinner, controlWordDescriptor, dynamicCallback, convertToAmbeMode, ne_eq, hlen,
      not_true_eq_false, if_false, ht]

/-- Witness of the amended C10 at code 5. -/
theorem convertToAmbeMode_dynamic_nested_witness :
    ∃ outerCallback innerCallback,
      convertToAmbeMode .little (dynamicDescriptor fun _ =>
        .value (dynamicDescriptor fun _ =>
          .value (controlWordDescriptor [1, 0, 2, 0, 3, 0, 4, 0, 5, 0, 6, 0])))
        = .ok (.DynamicMode outerCallback) ∧
      (outerCallback 5).result = some (.DynamicMode innerCallback) ∧
      (innerCallback 5).result = some (.ControlWordMode
        (memcpyShorts .little [1, 0, 2, 0, 3, 0, 4, 0, 5, 0, 6, 0])) :=
  convertToAmbeMode_dynamic_nested .little 5 _ _ [1, 0, 2, 0, 3, 0, 4, 0, 5, 0, 6, 0]
    rfl rfl (by decide)

/-! ## The entry points: claims C7, C8 -/

/-- A `ConnectionError` whose message is not empty is surfaced by both entry
points as the Python `ConnectionError` of this message, whether it is
thrown while the module is created or by the call that follows. -/
theorem connectionError_surfaced_of_message {M : Type} (lib : Digiham M) (e : Endian)
    (mode : PyObject) (ambeMode : Mode) (server : List Char) (what : String)
    (hwhat : what ≠ "") (hmode : convertToAmbeMode e mode = .ok ambeMode) :
    (createModule lib.construct server = .error (.ConnectionError what) →
      MbeSynthesizer_hasAmbe lib (.ok server) = .raised ⟨.ConnectionError, what⟩ ∧
      MbeSynthesizer_init lib e (.ok (mode, server)) = .raised ⟨.ConnectionError, what⟩) ∧
    (∀ module, createModule lib.construct server = .ok module →
      (lib.hasAmbeCodec module = .error (.ConnectionError what) →
        MbeSynthesizer_hasAmbe lib (.ok server) = .raised ⟨.ConnectionError, what⟩) ∧
      (lib.setMode module ambeMode = .error (.ConnectionError what) →
        MbeSynthesizer_init lib e (.ok (mode, server)) = .raised ⟨.ConnectionError, what⟩)) := by
  refine ⟨fun h => ⟨?_, ?_⟩, fun module h => ⟨fun h2 => ?_, fun h2 => ?_⟩⟩
  · simp [MbeSynthesizer_hasAmbe, h, hwhat]
  · simp [MbeSynthesizer_init, hmode, h, hwhat]
  · simp [MbeSynthesizer_hasAmbe, h, h2, hwhat]
  · simp [MbeSynthesizer_init, hmode, h, h2, hwhat]

/-- C7, the failing input: a `ConnectionError` whose message is empty.
Thrown by the constructor, it makes `MbeSynthesizer_hasAmbe` return `False`
and `MbeSynthesizer_init` raise `RuntimeError`; thrown by `hasAmbeCodec` or
`setMode`, it makes `MbeSynthesizer_hasAmbe` return `False` and
`MbeSynthesizer_init` succeed. -/
theorem connectionError_lost_of_empty_message (e : Endian) :
    createModule (refusingBackend "").construct "host".toList = .error (.ConnectionError "") ∧
    MbeSynthesizer_hasAmbe (refusingBackend "") (.ok "host".toList) = .returned false ∧
    MbeSynthesizer_init (refusingBackend "") e (.ok (tableDescriptor 0, "host".toList))
      = .raised ⟨.RuntimeError, "unable to create MbeSynthesizer module"⟩ ∧
    MbeSynthesizer_hasAmbe (droppingBackend "") (.ok "host".toList) = .returned false ∧
    MbeSynthesizer_init (droppingBackend "") e (.ok (tableDescriptor 0, "host".toList))
      = .returned () :=
  ⟨rfl, rfl, rfl, rfl, rfl⟩

/-- Whatever the resolver reports when it yields no mode,
`MbeSynthesizer_init` raises `ValueError` with the message
`unsupported ambe mode`. -/
theorem MbeSynthesizer_init_resolver_error {M : Type} (lib : Digiham M) (e : Endian)
    (mode : PyObject) (server : List Char) (err : Option PyErr)
    (hmode : convertToAmbeMode e mode = .error err) :
    MbeSynthesizer_init lib e (.ok (mode, server))
      = .raised ⟨.ValueError, "unsupported ambe mode"⟩ := by
  simp [MbeSynthesizer_init, hmode]

/-- C8, the failing input: a control word descriptor with a payload of 11
bytes.  The resolver sets `ValueError` with the message
`control word size mismatch, should be 12`, and `MbeSynthesizer_init`
raises `ValueError` with the message `unsupported ambe mode` in its
place. -/
theorem MbeSynthesizer_init_size_mismatch_replaced {M : Type} (lib : Digiham M) (e : Endian)
    (server : List Char) :
    convertToAmbeMode e (controlWordDescriptor [1, 0, 2, 0, 3, 0, 4, 0, 5, 0, 6])
      = .error (some ⟨.ValueError, "control word size mismatch, should be 12"⟩) ∧
    MbeSynthesizer_init lib e
      (.ok (controlWordDescriptor [1, 0, 2, 0, 3, 0, 4, 0, 5, 0, 6], server))
      = .raised ⟨.ValueError, "unsupported ambe mode"⟩ :=
  ⟨rfl, rfl⟩

end PyDigiham
